import Mathlib

/-!
Verification of the CanIGoIn extension's signal-classification engine and
buffered, retrying delivery pipeline, as a shallow embedding of
`src/extension/content.js` and `src/extension/background.js`.

Strings are modelled as `List Char` (code points; all patterns involved are
ASCII, where JS UTF-16 lengths and code-point lengths coincide).  The
JavaScript regular expressions of `CLICKFIX_PATTERNS` are embedded through a
small complete-backtracking matcher: a matcher takes the previously consumed
character (for `\b` word boundaries) and the remaining input, and returns
every possible way to consume a prefix.  This gives exactly the existence
semantics of `RegExp.test` / `String.match` for the pattern constructs the
source uses (literals, character classes, bounded and unbounded class
repetition, alternation, option, word boundary).
-/

namespace CanIGoIn

/-- JS `\s` whitespace class (the members relevant to ASCII/Latin text plus
the BOM and line/paragraph separators). -/
def jsSpace (c : Char) : Bool :=
  c = ' ' || c = '\t' || c = '\n' || c = '\r' || c.toNat = 11 || c.toNat = 12 ||
  c.toNat = 160 || c.toNat = 0x2028 || c.toNat = 0x2029 || c.toNat = 0xFEFF

/-- JS `\w` word character class `[A-Za-z0-9_]`. -/
def isWordCharJS (c : Char) : Bool :=
  (('a' ≤ c && c ≤ 'z') || ('A' ≤ c && c ≤ 'Z') || ('0' ≤ c && c ≤ '9') || c = '_')

/-- Case-insensitive (for the `/i` flag) or exact character comparison. -/
def charEqCI (ci : Bool) (a b : Char) : Bool :=
  if ci then a.toLower = b.toLower else a = b

/-- JS `String.prototype.trim` on a character list (uses the `\s` class). -/
def jsTrim (cs : List Char) : List Char :=
  ((cs.dropWhile jsSpace).reverse.dropWhile jsSpace).reverse

/-- JS `String.prototype.trim` on a `String`. -/
def jsTrimStr (s : String) : String :=
  String.mk (jsTrim s.data)

/-- `needle` is a prefix of `hay` (exact characters). -/
def subAt : List Char → List Char → Bool
  | [], _ => true
  | _ :: _, [] => false
  | n :: ns, c :: cs => n = c && subAt ns cs

/-- JS `String.prototype.includes`: exact (case-sensitive) substring test. -/
def containsSub (needle : List Char) : List Char → Bool
  | [] => subAt needle []
  | c :: cs => subAt needle (c :: cs) || containsSub needle cs

/-- A regex matcher: given the previously consumed character (`none` at the
start of the string) and the remaining input, return every `(last consumed
character, remainder)` pair reachable by consuming a matching prefix. -/
def Matcher : Type := Option Char → List Char → List (Option Char × List Char)

def flatMapL {α β : Type} (f : α → List β) : List α → List β
  | [] => []
  | a :: as => f a ++ flatMapL f as

/-- Empty pattern. -/
def mEps : Matcher := fun prev s => [(prev, s)]

/-- Never matches. -/
def mFail : Matcher := fun _ _ => []

def mLitAux (ci : Bool) : List Char → Option Char → List Char →
    Option (Option Char × List Char)
  | [], prev, s => some (prev, s)
  | _ :: _, _, [] => none
  | n :: ns, _, c :: cs => if charEqCI ci n c then mLitAux ci ns (some c) cs else none

/-- Literal string, case-insensitive when `ci` (the `/i` flag). -/
def mLit (ci : Bool) (needle : String) : Matcher := fun prev s =>
  match mLitAux ci needle.data prev s with
  | some r => [r]
  | none => []

/-- Single character from a class. -/
def mCls (p : Char → Bool) : Matcher := fun _ s =>
  match s with
  | c :: cs => if p c then [(some c, cs)] else []
  | [] => []

def lastCharOf (prev : Option Char) (consumed : List Char) : Option Char :=
  match consumed.getLast? with
  | some c => some c
  | none => prev

/-- Class repetition `p{lo,hi}` (`hi = none` for unbounded `{lo,}`), returning
every admissible split — complete backtracking. -/
def mClsRep (p : Char → Bool) (lo : Nat) (hi : Option Nat) : Matcher := fun prev s =>
  let run := (s.takeWhile p).length
  let maxK := match hi with
    | some h => min h run
    | none => run
  if lo ≤ maxK then
    (List.range (maxK + 1 - lo)).map (fun i =>
      let k := lo + i
      (lastCharOf prev (s.take k), s.drop k))
  else []

/-- Sequencing. -/
def mSeq (a b : Matcher) : Matcher := fun prev s =>
  flatMapL (fun r => b r.1 r.2) (a prev s)

/-- Alternation `a|b`. -/
def mAlt (a b : Matcher) : Matcher := fun prev s => a prev s ++ b prev s

def mSeqs (ms : List Matcher) : Matcher := ms.foldr mSeq mEps

def mAlts (ms : List Matcher) : Matcher := ms.foldr mAlt mFail

/-- Optional pattern `a?`. -/
def mOpt (a : Matcher) : Matcher := fun prev s => (prev, s) :: a prev s

/-- JS `\b` word boundary: succeeds (consuming nothing) iff exactly one side
of the current position is a word character (string edges are non-word). -/
def mWB : Matcher := fun prev s =>
  let wPrev := match prev with
    | some c => isWordCharJS c
    | none => false
  let wNext := match s with
    | c :: _ => isWordCharJS c
    | [] => false
  if wPrev ≠ wNext then [(prev, s)] else []

/-- Search for a match starting at any position (`RegExp.test` semantics for
an unanchored pattern). -/
def searchFrom (m : Matcher) : Option Char → List Char → Bool
  | prev, [] => !(m prev []).isEmpty
  | prev, c :: cs => !(m prev (c :: cs)).isEmpty || searchFrom m (some c) cs

def reTest (m : Matcher) (s : List Char) : Bool := searchFrom m none s

/-! ## The rule table: `CLICKFIX_PATTERNS` (content.js 788-883)

Every pattern below carries the `/i` flag except `base64Patterns[0]` (whose
character classes are case-symmetric anyway), so case-insensitive literals
are written lower-case. -/

/-- Case-insensitive literal (a pattern fragment under the `/i` flag). -/
def rlit (s : String) : Matcher := mLit true s

/-- Case-sensitive literal (no `/i` flag). -/
def rlitCS (s : String) : Matcher := mLit false s

/-- `\s+` -/
def ws1 : Matcher := mClsRep jsSpace 1 none

/-- `\s*` -/
def ws0 : Matcher := mClsRep jsSpace 0 none

/-- JS `.` (anything but a line terminator). -/
def dotC (c : Char) : Bool :=
  !(c = '\n' || c = '\r' || c.toNat = 0x2028 || c.toNat = 0x2029)

/-- `.*` -/
def dotStar : Matcher := mClsRep dotC 0 none

/-- `["']` -/
def quoteCls : Matcher := mCls (fun c => c = '"' || c.toNat = 39)

/-- `[A-Za-z0-9+\/]` (base64 alphabet). -/
def b64Char (c : Char) : Bool :=
  ('a' ≤ c && c ≤ 'z') || ('A' ≤ c && c ≤ 'Z') || ('0' ≤ c && c ≤ '9') ||
  c = '+' || c = '/'

/-- `={0,2}` -/
def eqPad : Matcher := mClsRep (fun c => c = '=') 0 (some 2)

/-- `[0-9a-f]` under `/i`. -/
def hexChar (c : Char) : Bool :=
  ('0' ≤ c && c ≤ '9') || ('a' ≤ c.toLower && c.toLower ≤ 'f')

def digitC (c : Char) : Bool := '0' ≤ c && c ≤ '9'

def alphaC (c : Char) : Bool := ('a' ≤ c && c ≤ 'z') || ('A' ≤ c && c ≤ 'Z')

/-- `[^\s"'`]` (URL path characters in `suspiciousDownloads`). -/
def urlPathChar (c : Char) : Bool :=
  !(jsSpace c) && c ≠ '"' && c.toNat ≠ 39 && c.toNat ≠ 96

/-- `/powershell|iex|Invoke-Expression|Invoke-WebRequest|iwr/i`
(content.js 914) — the `isPowerShell` test; note: no word boundaries. -/
def rePowerShellAny : Matcher :=
  mAlts [rlit "powershell", rlit "iex", rlit "invoke-expression",
         rlit "invoke-webrequest", rlit "iwr"]

/-- `CLICKFIX_PATTERNS.powershellCommands` (content.js 790-811). -/
def powershellCommands : List Matcher := [
  mSeqs [rlit "powershell", ws1, rlit "-executionpolicy", ws1, rlit "bypass"],
  mSeqs [rlit "powershell", ws1, rlit "-encodedcommand"],
  mSeqs [rlit "powershell", ws1, rlit "-enc", mWB],
  mSeqs [rlit "powershell", ws1, rlit "-command"],
  mSeqs [rlit "powershell", ws1, rlit "-wi", mCls jsSpace],
  mSeqs [rlit "powershell", ws1, rlit "-nop", mWB],
  rlit "invoke-expression",
  mSeqs [mWB, rlit "iex", mWB],
  rlit "invoke-webrequest",
  mSeqs [mWB, rlit "iwr", mWB],
  rlit "invoke-restmethod",
  mSeqs [rlit "start-process", ws1, dotStar, rlit "powershell"],
  mSeqs [rlit "new-object", ws1, rlit "net.webclient"],
  mSeqs [rlit ".downloadstring", ws0, rlit "("],
  mSeqs [rlit ".downloadfile", ws0, rlit "("],
  rlit "content.compatible",
  rlit "frombase64string",
  rlit "convert.frombase64string",
  rlit "expandstring",
  mSeqs [rlit ".replace", ws0, rlit "(", mClsRep (fun c => c ≠ ')') 1 none,
         rlit ",", ws0, mClsRep (fun c => c ≠ ')') 1 none, rlit ")"]
]

/-- `CLICKFIX_PATTERNS.windowsExecutables` (content.js 813-827). -/
def windowsExecutables : List Matcher := [
  mSeqs [mWB, rlit "cmd.exe", ws1, rlit "/c", mWB],
  mSeqs [mWB, rlit "cmd", ws1, rlit "/c", mWB],
  mSeqs [mWB, rlit "mshta.exe", mWB],
  mSeqs [mWB, rlit "mshta", ws1, mAlts [rlit "vbscript", rlit "http", rlit "https"],
         rlit ":"],
  mSeqs [mWB, rlit "wscript.exe", mWB],
  mSeqs [mWB, rlit "cscript.exe", mWB],
  mSeqs [mWB, rlit "certutil", ws1, mAlt (rlit "-urlcache") (rlit "-decode")],
  mSeqs [mWB, rlit "regasm.exe", mWB],
  mSeqs [mWB, rlit "msbuild.exe", mWB],
  mSeqs [mWB, rlit "iexpress.exe", mWB],
  mSeqs [mWB, rlit "rundll32.exe", mWB],
  mSeqs [mWB, rlit "forfiles.exe", mWB],
  mAlts [mSeqs [mWB, rlit "%temp%"], rlit "%temp%", rlit "%tmp%"]
]

/-- `CLICKFIX_PATTERNS.vbscriptPatterns` (content.js 829-837). -/
def vbscriptPatterns : List Matcher := [
  mSeqs [rlit "createobject", ws0, rlit "(", ws0, quoteCls, rlit "winhttp.winhttprequest"],
  mSeqs [rlit "createobject", ws0, rlit "(", ws0, quoteCls, rlit "msxml2.xmlhttp"],
  mSeqs [rlit ".open", ws0, rlit "(", ws0, quoteCls, rlit "get", quoteCls, ws0, rlit ","],
  mSeqs [rlit ".send", ws0, rlit "(", ws0, rlit ")"],
  mSeqs [mWB, rlit "execute", ws1, mClsRep isWordCharJS 1 none, rlit ".responsetext"],
  mSeqs [rlit "execute", ws0, rlit "("],
  mSeqs [rlit ".responsetext", ws0, rlit ">"]
]

/-- `CLICKFIX_PATTERNS.base64Patterns` (content.js 839-843). -/
def base64Patterns : List Matcher := [
  mSeqs [mClsRep b64Char 100 none, eqPad],
  mSeqs [rlit "-encodedcommand", ws1, mClsRep b64Char 50 none, eqPad],
  mSeqs [rlit "frombase64string", ws0, rlit "(", ws0, quoteCls,
         mClsRep b64Char 50 none, eqPad, quoteCls]
]

/-- `String.match` with `base64Patterns[i]` returns, when it matches, an array
of length 1 for the group-free patterns 0 and 1 but of length 2 for pattern 2
(full match plus its one capture group); `base64Matches` adds these lengths. -/
def base64MatchLen (i : Nat) : Nat := if i = 2 then 2 else 1

/-- `CLICKFIX_PATTERNS.suspiciousDownloads` (content.js 845-851). -/
def suspiciousDownloads : List Matcher := [
  mSeqs [rlit "http", mOpt (rlit "s"), rlit "://", mClsRep urlPathChar 1 none,
         rlit ".", mAlts [rlit "ps1", rlit "exe", rlit "bat", rlit "cmd",
                          rlit "vbs", rlit "js", rlit "jar", rlit "sh"]],
  mSeqs [rlit "downloadstring", ws0, rlit "(", ws0, quoteCls, rlit "http"],
  mSeqs [rlit "downloadfile", ws0, rlit "(", ws0, quoteCls, rlit "http"],
  mAlts [rlit "bit.ly", rlit "tinyurl", rlit "t.co", rlit "goo.gl"],
  mSeqs [rlit ":", mClsRep digitC 4 (some 4), rlit "/", mClsRep urlPathChar 1 none,
         rlit ".", mAlts [rlit "vbs", rlit "ps1", rlit "exe", rlit "bat"]]
]

/-- `CLICKFIX_PATTERNS.javascriptPatterns` (content.js 853-863). -/
def javascriptPatterns : List Matcher := [
  mSeqs [rlit "document.cookie", ws0, rlit "="],
  rlit "localstorage.setitem",
  rlit "sessionstorage.setitem",
  mSeqs [rlit "fetch", ws0, rlit "("],
  rlit "xmlhttprequest",
  mSeqs [rlit "atob", ws0, rlit "("],
  mSeqs [rlit "btoa", ws0, rlit "("],
  mSeqs [rlit "eval", ws0, rlit "("],
  mSeqs [rlit "function", ws0, rlit "("]
]

/-- `CLICKFIX_PATTERNS.obfuscationPatterns` (content.js 865-871).  None of
these has a capture group, so a successful non-global `match` contributes
exactly 1 to `obfuscationCount`. -/
def obfuscationPatterns : List Matcher := [
  mSeqs [rlit "\\x", mClsRep hexChar 2 (some 2)],
  mSeqs [rlit "\\u", mClsRep hexChar 4 (some 4)],
  mSeqs [quoteCls, ws0, rlit "+", ws0, quoteCls],
  mAlt (rlit "$env:") (mSeqs [rlit "%", mClsRep alphaC 1 none, rlit "%"]),
  mSeqs [rlit "$\x7b", mClsRep (fun c => c.toNat ≠ 125) 1 none, rlit "\x7d"]
]

/-- `CLICKFIX_PATTERNS.clickfixPatterns` (content.js 873-882). -/
def clickfixPatterns : List Matcher := [
  mSeqs [rlit "powershell", dotStar, rlit "base64"],
  mSeqs [rlit "iex", dotStar, rlit "downloadstring"],
  rlit "-encodedcommand",
  mSeqs [rlit "-enc", mWB],
  mSeqs [rlit "executionpolicy", dotStar, rlit "bypass"],
  mSeqs [rlit "cmd", ws0, rlit "/c", ws1, dotStar, rlit "powershell"],
  mSeqs [rlit "winhttp.winhttprequest", dotStar, rlit "execute"],
  mSeqs [rlit "press", ws1, mAlt (rlit "win") (rlit "ctrl"), rlit "+",
         mCls (fun c => c.toLower = 'r' || c.toLower = 'v')]
]

/-- The literal `-Enc` followed by `\b` (content.js 1041) — the only
case-SENSITIVE regex of the detector (no `/i` flag), tested against the
trimmed code. -/
def reEncCS : Matcher := mSeqs [rlitCS "-Enc", mWB]

/-! ## The detection engine: `detectClickfix` (content.js 902-1071) -/

/-- Index-tagged copy of a list (the `index` of the JS `forEach` loops). -/
def withIdx {α : Type} : Nat → List α → List (Nat × α)
  | _, [] => []
  | i, a :: as => (i, a) :: withIdx (i + 1) as

/-- The sub-list of patterns of `ps` (with their indices) that match `cs`. -/
def hits (ps : List Matcher) (cs : List Char) : List (Nat × Matcher) :=
  (withIdx 0 ps).filter (fun ip => reTest ip.2 cs)

/-- Issue tags carrying the loop index, e.g. `windows_exec_3`. -/
def idxIssues (tag : String) (hs : List (Nat × Matcher)) : List String :=
  hs.map (fun ip => tag ++ toString ip.1)

/-- The multiplicities of each character of `cs` (the `freq` table of
`calculateEntropy`, content.js 886-899). -/
def charFreqs (cs : List Char) : List Nat :=
  cs.dedup.map (fun c => cs.count c)

def entProd (cs : List Char) : Nat :=
  (charFreqs cs).foldl (fun acc n => acc * n ^ n) 1

/-- Integer form of `calculateEntropy(str) > 4.5` (content.js 1020).  With
`L` the length and `n_c` the multiplicities, the Shannon entropy is
`-(1/L) * sum n_c * (log2 n_c - log2 L) = log2 (L^L) / L - log2 (prod n_c^n_c) / L`,
so `entropy > 4.5` iff `L^L > 2^(4.5*L) * prod n_c^n_c`; squaring both
(positive) sides clears the half-integer exponent:
`(L^L)^2 > 2^(9*L) * (prod n_c^n_c)^2`. -/
def highEntropy (cs : List Char) : Bool :=
  let L := cs.length
  2 ^ (9 * L) * (entProd cs) ^ 2 < (L ^ L) ^ 2

/-- The verdict object returned by `detectClickfix` (content.js 1057-1067).
The JS object also carries `entropy: entropy.toFixed(2)`, a decimal string
rendering of the floating-point entropy, which no claim refers to and which
is not modelled. -/
structure ClickfixVerdict where
  riskScore : Nat
  issues : List String
  codePreview : String
  codeLength : Nat
  type : String
  isPowerShell : Bool
  isTerminalCode : Bool
deriving DecidableEq, Repr

/-! The `issues` list and `riskScore` accumulate through the detector in
source order; each stage below is one `forEach` loop or `if` of
content.js 913-1050, threaded as `(issues, riskScore)` pairs. -/

/-- `issues.push(tag); riskScore += w` guarded by a condition. -/
def addIf (c : Bool) (tag : String) (w : Nat) (acc : List String × Nat) :
    List String × Nat :=
  if c then (acc.1 ++ [tag], acc.2 + w) else acc

/-- A `forEach` loop pushing `tag + index` and adding `w` per matching
pattern. -/
def addHits (tag : String) (w : Nat) (hs : List (Nat × Matcher))
    (acc : List String × Nat) : List String × Nat :=
  (acc.1 ++ idxIssues tag hs, acc.2 + w * hs.length)

/-- A `forEach` loop pushing the same `tag` and adding `w` per matching
pattern (the base64 and clickfix loops). -/
def addTagHits (tag : String) (w : Nat) (hs : List (Nat × Matcher))
    (acc : List String × Nat) : List String × Nat :=
  (acc.1 ++ hs.map (fun _ => tag), acc.2 + w * hs.length)

/-- The `powershellCommands` loop (content.js 948-956): +25 per match and
+20 more when the index is ≤ 2. -/
def addPowershellHits (hs : List (Nat × Matcher)) (acc : List String × Nat) :
    List String × Nat :=
  (acc.1 ++ idxIssues "powershell_command_" hs,
   acc.2 + 25 * hs.length + 20 * (hs.filter (fun ip => ip.1 ≤ 2)).length)

/-- The code-length bonuses (content.js 1010-1016), on the trimmed length. -/
def addLengthBonus (len : Nat) (isTerm : Bool) (acc : List String × Nat) :
    List String × Nat :=
  if 200 < len && isTerm then (acc.1 ++ ["long_terminal_command"], acc.2 + 15)
  else if 500 < len then (acc.1 ++ ["long_code_block"], acc.2 + 10)
  else acc

/-- `if (issues.length >= 3) riskScore += 25` (content.js 1026-1028). -/
def addManyIssuesBonus (acc : List String × Nat) : List String × Nat :=
  if 3 ≤ acc.1.length then (acc.1, acc.2 + 25) else acc

/-- The threshold test and verdict construction (content.js 1053-1070). -/
def finishVerdict (acc : List String × Nat) (codeTrimmed : List Char)
    (detectedType : String) (isPS isTerm : Bool) : Option ClickfixVerdict :=
  let threshold := if isTerm then 40 else 50
  if threshold ≤ acc.2 || (isTerm && decide (2 ≤ acc.1.length)) then
    some { riskScore := min acc.2 100
           issues := acc.1
           codePreview := String.mk (codeTrimmed.take 500)
           codeLength := codeTrimmed.length
           type := detectedType
           isPowerShell := isPS
           isTerminalCode := isTerm }
  else none

/-- `detectClickfix(code)` (content.js 902-1071).  The `!code` falsy guard
rejects the empty string; the `typeof code !== 'string'` guard is vacuous
here since the input type is `String`.  Issues and score accumulate in
exactly the order of the source loops: PowerShell base (914-919), windows
executables (922-932, +28 each), VBScript (935-945, +35 each), PowerShell
commands (948-956), base64 (959-967, +30 each, `base64Matches` adds each
match array's length), suspicious downloads (970-975, +25 each), clickfix
patterns (978-983, +35 each), javascript patterns (986-991, +15 each),
obfuscation count (994-1005), length bonuses (1010-1016), entropy bonus
(1019-1023), three-issue bonus (1026-1028), and the four combination
bonuses (1031-1050); then the threshold test (1053-1070). -/
def detectClickfix (code : String) : Option ClickfixVerdict :=
  if code = "" then none else
  let cs := code.data
  let codeTrimmed := jsTrim cs
  let isPowerShell := reTest rePowerShellAny cs
  let isWindowsExec := !(hits windowsExecutables cs).isEmpty
  let isVbScript := !(hits vbscriptPatterns cs).isEmpty
  let isTerminalCode := isPowerShell || isWindowsExec || isVbScript
  let base64Matches :=
    ((hits base64Patterns cs).map (fun ip => base64MatchLen ip.1)).sum
  let acc0 : List String × Nat :=
    if isPowerShell then (["powershell_command"], 30) else ([], 0)
  let acc1 := addHits "windows_exec_" 28 (hits windowsExecutables cs) acc0
  let acc2 := addHits "vbscript_pattern_" 35 (hits vbscriptPatterns cs) acc1
  let acc3 := addPowershellHits (hits powershellCommands cs) acc2
  let acc4 := addTagHits "base64_encoded_command" 30 (hits base64Patterns cs) acc3
  let acc5 := addHits "suspicious_download_" 25 (hits suspiciousDownloads cs) acc4
  let acc6 := addTagHits "clickfix_pattern" 35 (hits clickfixPatterns cs) acc5
  let acc7 := addHits "javascript_pattern_" 15 (hits javascriptPatterns cs) acc6
  let acc8 := addIf (3 < (hits obfuscationPatterns cs).length) "high_obfuscation" 25 acc7
  let acc9 := addLengthBonus codeTrimmed.length isTerminalCode acc8
  let acc10 := addIf (highEntropy codeTrimmed) "high_entropy" 20 acc9
  let acc11 := addManyIssuesBonus acc10
  let acc12 := addIf (isPowerShell && decide (0 < base64Matches))
    "powershell_base64_combo" 40 acc11
  let acc13 := addIf (containsSub "iex".data codeTrimmed &&
    containsSub "DownloadString".data codeTrimmed) "iex_download_combo" 45 acc12
  let acc14 := addIf (containsSub "-EncodedCommand".data codeTrimmed ||
    reTest reEncCS codeTrimmed) "encoded_command_flag" 40 acc13
  let acc15 := addIf (isWindowsExec && isVbScript) "cmd_vbscript_chain" 40 acc14
  finishVerdict acc15 codeTrimmed
    (if isPowerShell then "powershell"
     else if isWindowsExec then "windows_exec"
     else if isVbScript then "vbscript"
     else "unknown")
    isPowerShell isTerminalCode

/-! ## Marker families and the clipboard-write gate (content.js 1091-1127) -/

/-- No pattern of the family matches. -/
def noneMatch (ps : List Matcher) (cs : List Char) : Bool :=
  (hits ps cs).isEmpty

/-- A shell-command ("terminal-like") marker is present: the detector's own
`isPowerShell || isWindowsExec || isVbScript` notion (content.js 914-945). -/
def hasTerminalMarker (s : String) : Bool :=
  reTest rePowerShellAny s.data ||
  !(noneMatch windowsExecutables s.data) ||
  !(noneMatch vbscriptPatterns s.data)

/-- A scripting-API marker is present: one of the network / storage /
eval-like API patterns of `javascriptPatterns` matches. -/
def hasScriptApiMarker (s : String) : Bool :=
  !(noneMatch javascriptPatterns s.data)

/-- `s` matches none of the detector's rule patterns and contains none of the
marker substrings of its combination bonuses (content.js 1036-1044). -/
def matchesNoRuleOrMarker (s : String) : Bool :=
  let cs := s.data
  let t := jsTrim cs
  !(reTest rePowerShellAny cs) &&
  noneMatch windowsExecutables cs &&
  noneMatch vbscriptPatterns cs &&
  noneMatch powershellCommands cs &&
  noneMatch base64Patterns cs &&
  noneMatch suspiciousDownloads cs &&
  noneMatch clickfixPatterns cs &&
  noneMatch javascriptPatterns cs &&
  noneMatch obfuscationPatterns cs &&
  !(containsSub "iex".data t) &&
  !(containsSub "DownloadString".data t) &&
  !(containsSub "-EncodedCommand".data t) &&
  !(reTest reEncCS t)

/-- The anchored regex `^https?:\/\/[^\s]+$` of content.js 1097 (no `/i`
flag): `http`, an optional `s`, `://`, then one or more non-whitespace
characters reaching the end of the string. -/
def isSingleHttpUrl (s : String) : Bool :=
  let rest? : Option (List Char) :=
    match s.data with
    | 'h' :: 't' :: 't' :: 'p' :: 's' :: ':' :: '/' :: '/' :: r => some r
    | 'h' :: 't' :: 't' :: 'p' :: ':' :: '/' :: '/' :: r => some r
    | _ => none
  match rest? with
  | some r => !r.isEmpty && r.all (fun c => !jsSpace c)
  | none => false

/-- The `chrome.runtime.sendMessage` emission of `checkClipboardWrite`
(content.js 1099-1125): either the programmatic-write branch or the
high-risk user-initiated branch, each carrying the (possibly boosted)
verdict.  The envelope fields (url, source, timestamp, userAgent, details)
are environment values and are not modelled. -/
inductive ClipboardMessage where
  | programmaticDetection (detection : ClickfixVerdict)
  | highRiskDetection (detection : ClickfixVerdict)
deriving DecidableEq, Repr

/-- `checkClipboardWrite(text, isProgrammatic, timeSinceUserAction)`
(content.js 1091-1127), returning the message it emits, if any.  The
`timeSinceUserAction` argument is only echoed inside the unmodelled message
envelope.  In the programmatic branch the verdict is boosted by +30 (clamped
at 100) and tagged `programmatic_clipboard_write`; the JS also sets a fixed
`note` string on the object, not modelled. -/
def checkClipboardWrite (text : String) (isProgrammatic : Bool) :
    Option ClipboardMessage :=
  if text = "" then none else          -- `!text` falsy guard
  let trimmedText := jsTrimStr text
  if trimmedText.length < 20 then none
  else if isSingleHttpUrl trimmedText then none
  else
    match detectClickfix trimmedText with
    | some d =>
      if isProgrammatic then
        some (ClipboardMessage.programmaticDetection
          { d with riskScore := min (d.riskScore + 30) 100
                   issues := d.issues ++ ["programmatic_clipboard_write"] })
      else if 70 ≤ d.riskScore then
        some (ClipboardMessage.highRiskDetection d)
      else none
    | none => none

/-! ## Configuration and the event shape (background.js 962-989, 1573-1742)

`CONFIG` defaults are those of background.js 962-989.  Note that the storage
loader (background.js 1123) guards `maxBufferSize` with a plain truthiness
test, so a configured value of `0` is ignored and the effective capacity is
always at least 1. -/

structure Config where
  batchSize : Nat := 50
  maxBufferSize : Nat := 1000
  maxRetries : Nat := 3
  retryDelay : Nat := 5000
  sanitizeSensitiveData : Bool := true
  enableReportUrls : Bool := false
  enableJsExecution : Bool := true
  enableClickfix : Bool := true
deriving DecidableEq, Repr

structure RequestHeader where
  name : String
  value : String
deriving DecidableEq, Repr

/-- The duck-typed log-entry objects flowing through `logEntry` /
`sendLogBatch`.  Absent JS fields are `none`; a JS empty string is falsy, so
truthiness tests are modelled by `truthyStr`. -/
structure LogEntry where
  requestId : Option String := none
  url : Option String := none
  type : Option String := none
  event_type : Option String := none
  method : Option String := none
  blocked : Option Bool := none
  blockReason : Option String := none
  block_reason : Option String := none
  requestHeaders : Option (List RequestHeader) := none
deriving DecidableEq, Repr

/-- JS truthiness of an optional string field (undefined and `''` are falsy). -/
def truthyStr : Option String → Bool
  | some s => s ≠ ""
  | none => false

/-- JS `a || b` on optional string fields. -/
def orTruthy (a b : Option String) : Option String :=
  match a with
  | some s => if s = "" then b else some s
  | none => b

/-- `log.requestId || (log.url && log.type !== 'clickfix_detection' &&
log.type !== 'javascript_execution')` — the network-log test used both by
the feature gate (background.js 1578) and the batch partition (1633).
(1578 compares `entry.type || ''`, 1633 compares `log.type` raw; both are
equivalent since neither `undefined` nor `''` equals the two literals.) -/
def isNetworkLogEntry (e : LogEntry) : Bool :=
  truthyStr e.requestId ||
  (truthyStr e.url && e.type.getD "" ≠ "clickfix_detection" &&
   e.type.getD "" ≠ "javascript_execution")

/-- The feature-toggle gate at the top of `logEntry` (background.js 1574-1579):
`true` iff the entry is not discarded. -/
def logEntryAccepts (cfg : Config) (e : LogEntry) : Bool :=
  let entryType := e.type.getD ""
  if entryType = "clickfix_detection" && !cfg.enableClickfix then false
  else if entryType = "javascript_execution" && !cfg.enableJsExecution then false
  else if isNetworkLogEntry e && !cfg.enableReportUrls then false
  else true

/-! ## Sanitization (background.js 1264-1296)

`sanitizeData` relies on the WHATWG `URL` platform builtin (`new URL`,
`searchParams.has/set`, `toString`), which is not part of this repository.
It is modelled from the spec: a URL is a base (scheme `://` authority and
path), an ordered query-parameter list, and an optional fragment; parsing
fails (the `new URL` throw, caught at background.js 1280) when the string
has no alphabetic scheme followed by `://` and a non-empty remainder;
`searchParams.set` replaces the value of the first pair with the given name
and removes any later pairs with that name. -/

structure UrlModel where
  base : String
  params : List (String × String)
  fragment : Option String
deriving DecidableEq, Repr

/-- Split at the first occurrence of `sep`: the part before it and, when the
separator occurs, the part after it. -/
def splitFirst (sep : Char) : List Char → List Char × Option (List Char)
  | [] => ([], none)
  | c :: rest =>
    if c = sep then ([], some rest)
    else
      let r := splitFirst sep rest
      (c :: r.1, r.2)

/-- Split at every occurrence of `sep`. -/
def splitEvery (sep : Char) : List Char → List (List Char)
  | [] => [[]]
  | c :: rest =>
    let r := splitEvery sep rest
    if c = sep then [] :: r
    else
      match r with
      | h :: t => (c :: h) :: t
      | [] => [[c]]

/-- One `k=v` query piece (no `=` means an empty value). -/
def parseParam (p : List Char) : String × String :=
  let kv := splitFirst '=' p
  (String.mk kv.1, String.mk (kv.2.getD []))

/-- Modelled from the spec: the WHATWG `new URL` builtin (simplified).
Succeeds iff the string has a non-empty alphabetic scheme, `://`, and a
non-empty remainder; the fragment follows the first `#`, the query the
first `?` before it, and query pieces are split on `&` (empty pieces are
dropped). -/
def urlParse (u : String) : Option UrlModel :=
  let cs := u.data
  let h := splitFirst '#' cs
  let q := splitFirst '?' h.1
  let scheme := q.1.takeWhile alphaC
  let rest := q.1.drop scheme.length
  if scheme.isEmpty then none
  else
    match rest with
    | ':' :: '/' :: '/' :: r =>
      if r.isEmpty then none
      else some
        { base := String.mk q.1
          params := ((splitEvery '&' (q.2.getD [])).filter (fun p => !p.isEmpty)).map parseParam
          fragment := h.2.map String.mk }
    | _ => none

/-- Serialize back (`url.toString()` in the model). -/
def joinParams : List (String × String) → String
  | [] => ""
  | [kv] => kv.1 ++ "=" ++ kv.2
  | kv :: rest => kv.1 ++ "=" ++ kv.2 ++ "&" ++ joinParams rest

def urlToString (m : UrlModel) : String :=
  m.base ++ (if m.params.isEmpty then "" else "?" ++ joinParams m.params) ++
  (match m.fragment with
   | some f => "#" ++ f
   | none => "")

/-- `url.searchParams.has(name)`. -/
def hasParam (ps : List (String × String)) (n : String) : Bool :=
  ps.any (fun kv => kv.1 = n)

/-- `url.searchParams.set(name, v)` (WHATWG): replace the value of the first
pair named `name` and drop later pairs with that name; append when absent. -/
def setParam : List (String × String) → String → String → List (String × String)
  | [], n, v => [(n, v)]
  | kv :: rest, n, v =>
    if kv.1 = n then (n, v) :: rest.filter (fun kv2 => kv2.1 ≠ n)
    else kv :: setParam rest n v

/-- The sensitive query parameters of background.js 1274. -/
def SENSITIVE_PARAMS : List String :=
  ["password", "token", "key", "secret", "api_key", "apikey", "auth"]

/-- The sensitive header names of background.js 1288. -/
def SENSITIVE_HEADERS : List String := ["authorization", "cookie", "x-api-key"]

/-- The `forEach` over sensitive parameters (background.js 1274-1278). -/
def redactParams (ps : List (String × String)) : List (String × String) :=
  SENSITIVE_PARAMS.foldl
    (fun acc p => if hasParam acc p then setParam acc p "[REDACTED]" else acc) ps

def redactUrlModel (m : UrlModel) : UrlModel :=
  { m with params := redactParams m.params }

/-- JS `String.prototype.toLowerCase` (ASCII; header names are ASCII). -/
def lowerStr (s : String) : String := String.mk (s.data.map Char.toLower)

/-- One header through the sanitizer (background.js 1287-1292). -/
def redactHeader (h : RequestHeader) : RequestHeader :=
  if SENSITIVE_HEADERS.contains (lowerStr h.name) then { h with value := "[REDACTED]" }
  else h

/-- `sanitizeData(data)` (background.js 1264-1296).  The
`JSON.parse(JSON.stringify(data))` deep copy is the identity on the
modelled fields.  A falsy (absent or empty) `url` is skipped; a `url` that
`new URL` rejects is left unchanged (the catch at 1280); `requestHeaders`,
when present, are mapped through `redactHeader`. -/
def sanitizeData (cfg : Config) (e : LogEntry) : LogEntry :=
  if !cfg.sanitizeSensitiveData then e else
  let e1 :=
    match e.url with
    | some u =>
      if u = "" then e
      else
        match urlParse u with
        | some m => { e with url := some (urlToString (redactUrlModel m)) }
        | none => e
    | none => e
  match e1.requestHeaders with
  | some hs => { e1 with requestHeaders := some (hs.map redactHeader) }
  | none => e1

/-! ## The bounded buffer: `logEntry` (background.js 1573-1613) -/

/-- JS `arr.slice(-k)`.  For `k = 0`, `slice(-0)` is `slice(0)`: the whole
array (this is why background.js 1123's truthiness guard matters). -/
def jsSliceLast {α : Type} (k : Nat) (l : List α) : List α :=
  if k = 0 then l else l.drop (l.length - k)

/-- The buffer mutation of `logEntry` (background.js 1586-1594): push the
entry, then, if the length exceeds `maxBufferSize`, keep only the most
recent `maxBufferSize` entries. -/
def logEntryBufferStep {α : Type} (K : Nat) (buf : List α) (e : α) : List α :=
  let b := buf ++ [e]
  if K < b.length then jsSliceLast K b else b

/-- One `logEntry(entry)` call's effect on `logBuffer` (background.js
1573-1594): the feature-toggle gate, sanitization, then the bounded push.
The flush triggers at 1597-1612 start `sendLogBatch` (the separate
take-batch operation, modelled by `sendLogBatchRun`) and do not themselves
change what the eviction policy keeps. -/
def logEntryStep (cfg : Config) (K : Nat) (buf : List LogEntry) (e : LogEntry) :
    List LogEntry :=
  if logEntryAccepts cfg e then logEntryBufferStep K buf (sanitizeData cfg e)
  else buf

/-! ## Batch partition and routing: `sendLogBatch` (background.js 1619-1692) -/

/-- One element of the `logs` array of the `/api/logs` payload
(background.js 1643-1650). -/
structure NetworkLogRecord where
  requestId : String
  url : String
  method : String
  type : String
  blocked : Bool
  block_reason : Option String
deriving DecidableEq, Repr

/-- `networkLogs.map(log => ...)` (background.js 1643-1650), with the JS
`||` defaults. -/
def toNetworkLogRecord (e : LogEntry) : NetworkLogRecord :=
  { requestId := (orTruthy e.requestId (some "")).getD ""
    url := (orTruthy e.url (some "")).getD ""
    method := (orTruthy e.method (some "GET")).getD "GET"
    type := (orTruthy e.type (some "other")).getD "other"
    blocked := e.blocked.getD false
    block_reason := orTruthy e.blockReason e.block_reason }

/-- `event.type || event.event_type || 'unknown_event'` then the
security-event test (background.js 1666-1671). -/
def isSecurityEvent (e : LogEntry) : Bool :=
  let eventType := (orTruthy e.type e.event_type).getD "unknown_event"
  eventType = "clickfix_detection" || eventType = "extension_security_scan"

/-- The endpoint chosen for a special event (background.js 1671). -/
def eventEndpoint (e : LogEntry) : String :=
  if isSecurityEvent e then "/api/security" else "/api/extensions"

/-- One HTTP POST performed by `sendLogBatch`: either the single merged
`/api/logs` payload (whose `client_id` / `session_id` / `timestamp` /
`user_agent` envelope fields are environment values, not modelled), or one
individual special-event POST to the given endpoint. -/
inductive DeliveryPost where
  | logsPost (records : List NetworkLogRecord)
  | eventPost (endpoint : String) (event : LogEntry)
deriving DecidableEq, Repr

/-- The sequence of POSTs that `sendLogBatch` performs for a batch
(background.js 1632-1691): the batch is filtered into `networkLogs`, the
rest (`!networkLogs.includes(log)`) become `specialEvents`; the network
logs, when any, are merged into one payload sent first; then each special
event is posted individually to its endpoint, in order. -/
def sendLogBatchPlan (batch : List LogEntry) : List DeliveryPost :=
  let networkLogs := batch.filter isNetworkLogEntry
  let specialEvents := batch.filter (fun log => !networkLogs.contains log)
  (if networkLogs.isEmpty then []
   else [DeliveryPost.logsPost (networkLogs.map toNetworkLogRecord)]) ++
  specialEvents.map (fun e => DeliveryPost.eventPost (eventEndpoint e) e)

/-! ## Retry and dead-lettering: `sendWithRetry` / `retryFailedBatches`
(background.js 1694-1742)

Delivery outcomes are abstracted by an oracle list: `true` is a 2xx
response, `false` a thrown transport error or non-2xx status (both reach
the catch at background.js 1717).  Each list element feeds one attempt, in
order; the asynchronous `setTimeout` chaining is linearized, which is
faithful to the single-threaded event loop. -/

structure DeliveryState where
  logBuffer : List LogEntry
  failedBatches : List (List NetworkLogRecord)
deriving DecidableEq, Repr

/-- `sendWithRetry(payload, attempt)` (background.js 1694-1733).  On success
the code runs `retryFailedBatches()` (1735-1742), which shifts the oldest
dead-lettered payload, if any, and re-sends it with `attempt = 0` — that
call is inlined here as the success branch.  On failure with
`attempt < maxRetries - 1` the send is retried with `attempt + 1`;
otherwise the payload is appended to `failedBatches`. -/
def sendWithRetryRun (m : Nat) (payload : List NetworkLogRecord) :
    List Bool → Nat → DeliveryState → DeliveryState
  | [], _, st => st
  | ok :: rest, attempt, st =>
    if ok then
      match st.failedBatches with
      | [] => st
      | b :: others =>
        sendWithRetryRun m b rest 0 { st with failedBatches := others }
    else if attempt < m - 1 then
      sendWithRetryRun m payload rest (attempt + 1) st
    else
      { st with failedBatches := st.failedBatches ++ [payload] }

/-- `retryFailedBatches()` (background.js 1735-1742): shift the oldest
dead-lettered payload and hand it to `sendWithRetry(batch, 0)` — the
attempt counter restarts at 0. -/
def retryFailedBatchesRun (m : Nat) (outcomes : List Bool) (st : DeliveryState) :
    DeliveryState :=
  match st.failedBatches with
  | [] => st
  | b :: others =>
    sendWithRetryRun m b outcomes 0 { st with failedBatches := others }

/-- The delays scheduled by the `setTimeout` at background.js 1723-1726 for
one batch: after a failed attempt `a` (0-based) that still has budget, the
next attempt is scheduled `retryDelay * (a + 1)` ms later. -/
def sendWithRetryDelays (r m : Nat) : List Bool → Nat → List Nat
  | [], _ => []
  | ok :: rest, attempt =>
    if ok then []
    else if attempt < m - 1 then
      r * (attempt + 1) :: sendWithRetryDelays r m rest (attempt + 1)
    else []

/-- How many delivery attempts one `sendWithRetry` chain performs for its
own batch (not counting the opportunistic drain of other batches). -/
def sendWithRetryAttempts (m : Nat) : List Bool → Nat → Nat
  | [], _ => 0
  | ok :: rest, attempt =>
    1 + (if ok then 0
         else if attempt < m - 1 then sendWithRetryAttempts m rest (attempt + 1)
         else 0)

/-- `sendLogBatch` state effect (background.js 1619-1658): splice the first
`batchSize` entries off the buffer, then send the merged network-log
payload through `sendWithRetry` (special events go through plain
`fetchWithTimeout` without retry or dead-lettering and do not touch the
state).  Returns the new state and the spliced batch. -/
def sendLogBatchRun (cfg : Config) (outcomes : List Bool) (st : DeliveryState) :
    DeliveryState × List LogEntry :=
  if st.logBuffer.isEmpty then (st, []) else
  let batch := st.logBuffer.take cfg.batchSize
  let st1 : DeliveryState := { st with logBuffer := st.logBuffer.drop cfg.batchSize }
  let networkLogs := batch.filter isNetworkLogEntry
  if networkLogs.isEmpty then (st1, batch)
  else (sendWithRetryRun cfg.maxRetries (networkLogs.map toNetworkLogRecord)
          outcomes 0 st1, batch)

/-! ## Helper lemmas -/

theorem jsTrim_isInfix (cs : List Char) : jsTrim cs <:+: cs := by
  unfold jsTrim
  have h1 : cs.dropWhile jsSpace <:+ cs := List.dropWhile_suffix jsSpace
  have h2 : ((cs.dropWhile jsSpace).reverse.dropWhile jsSpace).reverse <+:
      cs.dropWhile jsSpace := by
    apply List.reverse_suffix.mp
    simpa using List.dropWhile_suffix (l := (cs.dropWhile jsSpace).reverse) jsSpace
  exact h2.isInfix.trans h1.isInfix

theorem foldl_bufferStep_eq {α : Type} (K : Nat) (hK : 1 ≤ K) (l : List α) :
    l.foldl (logEntryBufferStep K) [] = l.drop (l.length - K) := by
  induction l using List.reverseRecOn with
  | nil => simp
  | append_singleton xs x ih =>
    rw [List.foldl_append, List.foldl_cons, List.foldl_nil, ih]
    by_cases h : xs.length < K
    · have h0 : xs.length - K = 0 := by omega
      have h1 : (xs ++ [x]).length - K = 0 := by
        simp only [List.length_append, List.length_cons, List.length_nil]
        omega
      rw [h0, h1, List.drop_zero, List.drop_zero]
      unfold logEntryBufferStep
      rw [if_neg]
      simp only [List.length_append, List.length_cons, List.length_nil, not_lt]
      omega
    · push_neg at h
      have hlenA : (xs.drop (xs.length - K)).length = K := by
        rw [List.length_drop]; omega
      have hblen : ((xs.drop (xs.length - K)) ++ [x]).length = K + 1 := by
        simp only [List.length_append, List.length_cons, List.length_nil, hlenA]
      unfold logEntryBufferStep jsSliceLast
      rw [if_pos (by rw [hblen]; omega), if_neg (by omega : ¬ K = 0), hblen]
      rw [show K + 1 - K = 1 from by omega]
      rw [List.drop_append_of_le_length (by rw [hlenA]; omega), List.drop_drop]
      rw [show (xs ++ [x]).length - K = (xs.length - K) + 1 from by
        simp only [List.length_append, List.length_cons, List.length_nil]; omega]
      rw [List.drop_append_of_le_length (by omega)]

theorem foldl_logEntryStep_eq_of_accepts (cfg : Config) (K : Nat) :
    ∀ (p : List LogEntry) (buf : List LogEntry),
      (∀ e ∈ p, logEntryAccepts cfg e = true) →
      p.foldl (logEntryStep cfg K) buf =
        (p.map (sanitizeData cfg)).foldl (logEntryBufferStep K) buf := by
  intro p
  induction p with
  | nil => intro buf _; rfl
  | cons e p ih =>
    intro buf hacc
    simp only [List.foldl_cons, List.map_cons]
    rw [show logEntryStep cfg K buf e = logEntryBufferStep K buf (sanitizeData cfg e)
        from by unfold logEntryStep; rw [hacc e (by simp)]; simp]
    exact ih _ (fun e' he' => hacc e' (by simp [he']))

theorem sendWithRetryRun_all_fail (m : Nat) (payload : List NetworkLogRecord) :
    ∀ (k attempt : Nat) (st : DeliveryState), attempt + k + 1 = m →
      sendWithRetryRun m payload (List.replicate (k + 1) false) attempt st =
        { st with failedBatches := st.failedBatches ++ [payload] } := by
  intro k
  induction k with
  | zero =>
    intro attempt st h
    simp only [List.replicate, sendWithRetryRun, Bool.false_eq_true, if_false]
    rw [if_neg (by omega)]
  | succ k ih =>
    intro attempt st h
    rw [List.replicate_succ]
    simp only [sendWithRetryRun, Bool.false_eq_true, if_false]
    rw [if_pos (by omega)]
    exact ih (attempt + 1) st (by omega)

theorem sendWithRetryDelays_all_fail (r m : Nat) :
    ∀ (k attempt : Nat), attempt + k + 1 = m →
      sendWithRetryDelays r m (List.replicate (k + 1) false) attempt =
        (List.range k).map (fun i => r * (attempt + 1 + i)) := by
  intro k
  induction k with
  | zero =>
    intro attempt h
    simp only [List.replicate, sendWithRetryDelays, Bool.false_eq_true, if_false]
    rw [if_neg (by omega)]
    simp
  | succ k ih =>
    intro attempt h
    rw [List.replicate_succ]
    simp only [sendWithRetryDelays, Bool.false_eq_true, if_false]
    rw [if_pos (by omega)]
    show r * (attempt + 1) ::
        sendWithRetryDelays r m (List.replicate (k + 1) false) (attempt + 1) =
      List.map (fun i => r * (attempt + 1 + i)) (List.range (k + 1))
    rw [ih (attempt + 1) (by omega), List.range_succ_eq_map]
    simp only [List.map_cons, List.map_map]
    congr 1
    apply List.map_congr_left
    intro i _
    simp only [Function.comp_apply]
    congr 1
    omega

theorem sendWithRetryAttempts_all_fail (m : Nat) :
    ∀ (k attempt : Nat), attempt + k + 1 = m →
      sendWithRetryAttempts m (List.replicate (k + 1) false) attempt = k + 1 := by
  intro k
  induction k with
  | zero =>
    intro attempt h
    simp only [List.replicate, sendWithRetryAttempts, Bool.false_eq_true, if_false]
    rw [if_neg (by omega)]
  | succ k ih =>
    intro attempt h
    rw [List.replicate_succ]
    simp only [sendWithRetryAttempts, Bool.false_eq_true, if_false]
    rw [if_pos (by omega)]
    show 1 + sendWithRetryAttempts m (List.replicate (k + 1) false) (attempt + 1) =
      k + 1 + 1
    rw [ih (attempt + 1) (by omega)]
    omega

theorem hits_eq_nil_of_noneMatch {ps : List Matcher} {cs : List Char}
    (h : noneMatch ps cs = true) : hits ps cs = [] :=
  List.isEmpty_iff.mp h

theorem mem_setParam_of_ne (ps : List (String × String)) (n v : String)
    (kv : String × String) (hmem : kv ∈ setParam ps n v) (hne : kv.1 ≠ n) :
    kv ∈ ps := by
  induction ps with
  | nil =>
    simp only [setParam, List.mem_singleton] at hmem
    exact absurd (by rw [hmem]) hne
  | cons p t ih =>
    simp only [setParam] at hmem
    by_cases hp : p.1 = n
    · rw [if_pos hp] at hmem
      rcases List.mem_cons.mp hmem with h | h
      · exact absurd (by rw [h]) hne
      · exact List.mem_cons_of_mem p (List.mem_of_mem_filter h)
    · rw [if_neg hp] at hmem
      rcases List.mem_cons.mp hmem with h | h
      · exact h ▸ List.mem_cons_self p t
      · exact List.mem_cons_of_mem p (ih h)

theorem mem_setParam_eq_val (ps : List (String × String)) (n v : String)
    (kv : String × String) (hmem : kv ∈ setParam ps n v) (heq : kv.1 = n) :
    kv.2 = v := by
  induction ps with
  | nil =>
    simp only [setParam, List.mem_singleton] at hmem
    rw [hmem]
  | cons p t ih =>
    simp only [setParam] at hmem
    by_cases hp : p.1 = n
    · rw [if_pos hp] at hmem
      rcases List.mem_cons.mp hmem with h | h
      · rw [h]
      · have := (List.mem_filter.mp h).2
        simp only [decide_eq_true_eq] at this
        exact absurd heq this
    · rw [if_neg hp] at hmem
      rcases List.mem_cons.mp hmem with h | h
      · exact absurd (h ▸ heq) hp
      · exact ih h

theorem redact_fold_prop :
    ∀ (S : List String) (q : List (String × String)) (kv : String × String),
      kv ∈ S.foldl
        (fun acc p => if hasParam acc p then setParam acc p "[REDACTED]" else acc) q →
      (kv.1 ∈ S → kv.2 = "[REDACTED]") ∧ (kv.1 ∉ S → kv ∈ q) := by
  intro S
  induction S with
  | nil =>
    intro q kv h
    exact ⟨fun hc => absurd hc (List.not_mem_nil _), fun _ => h⟩
  | cons p S ih =>
    intro q kv h
    rw [List.foldl_cons] at h
    obtain ⟨h1, h2⟩ :=
      ih (if hasParam q p then setParam q p "[REDACTED]" else q) kv h
    constructor
    · intro hin
      rcases List.mem_cons.mp hin with hkvp | hS
      · by_cases hkv : kv.1 ∈ S
        · exact h1 hkv
        · have hq := h2 hkv
          by_cases hhas : hasParam q p
          · rw [if_pos hhas] at hq
            exact mem_setParam_eq_val _ _ _ _ hq hkvp
          · rw [if_neg hhas] at hq
            exact absurd (by
              unfold hasParam
              rw [List.any_eq_true]
              exact ⟨kv, hq, by simp [hkvp]⟩) hhas
      · exact h1 hS
    · intro hnin
      have hp' : kv.1 ≠ p := fun hc => hnin (by rw [hc]; exact List.mem_cons_self p S)
      have hS' : kv.1 ∉ S := fun hc => hnin (List.mem_cons_of_mem p hc)
      have hq := h2 hS'
      by_cases hhas : hasParam q p
      · rw [if_pos hhas] at hq
        exact mem_setParam_of_ne _ _ _ _ hq hp'
      · rw [if_neg hhas] at hq
        exact hq

/-- The spec-side redaction property of a query-parameter list `qr` relative
to the original list `q`: every sensitive pair is redacted and every
non-sensitive pair is an original pair. -/
def paramsRedactedOk (qr q : List (String × String)) : Bool :=
  qr.all (fun kv =>
    if kv.1 ∈ SENSITIVE_PARAMS then decide (kv.2 = "[REDACTED]")
    else decide (kv ∈ q))

theorem paramsRedactedOk_redact (ps : List (String × String)) :
    paramsRedactedOk (redactParams ps) ps = true := by
  unfold paramsRedactedOk
  rw [List.all_eq_true]
  intro kv hkv
  unfold redactParams at hkv
  obtain ⟨h1, h2⟩ := redact_fold_prop SENSITIVE_PARAMS ps kv hkv
  by_cases hs : kv.1 ∈ SENSITIVE_PARAMS
  · rw [if_pos hs]
    exact decide_eq_true (h1 hs)
  · rw [if_neg hs]
    exact decide_eq_true (h2 hs)

/-- The spec-side redaction property of a header list `hr` relative to the
original list `hs`: pointwise, sensitive-named headers have their value
redacted and the rest are unchanged. -/
def headersRedactedOk : List RequestHeader → List RequestHeader → Bool
  | [], [] => true
  | hr :: tr, h :: t =>
    (if lowerStr h.name ∈ SENSITIVE_HEADERS
     then decide (hr = { h with value := "[REDACTED]" })
     else decide (hr = h)) && headersRedactedOk tr t
  | _, _ => false

theorem headersRedactedOk_map (hs : List RequestHeader) :
    headersRedactedOk (hs.map redactHeader) hs = true := by
  induction hs with
  | nil => rfl
  | cons h t ih =>
    simp only [List.map_cons, headersRedactedOk, ih, Bool.and_true]
    unfold redactHeader
    by_cases hsens : lowerStr h.name ∈ SENSITIVE_HEADERS
    · rw [if_pos hsens,
        if_pos (show SENSITIVE_HEADERS.contains (lowerStr h.name) = true from by
          simpa [List.elem_eq_mem] using hsens)]
      exact decide_eq_true rfl
    · rw [if_neg hsens,
        if_neg (show ¬ SENSITIVE_HEADERS.contains (lowerStr h.name) = true from by
          simpa [List.elem_eq_mem] using hsens)]
      exact decide_eq_true rfl

/-- The spec-side statement checked by claim C8 against `sanitizeData`: on a
URL that parses, the emitted URL is the serialization of the redacted model
and the redaction property holds of its parameters; on a URL the parser
rejects, the URL is unchanged; headers, when present, are mapped through
`redactHeader` and satisfy the redaction property. -/
def sanitizeClaimCheck (cfg : Config) (e : LogEntry) : Bool :=
  let r := sanitizeData cfg e
  (match e.url with
   | none => decide (r.url = none)
   | some u =>
     match urlParse u with
     | some m =>
       decide (r.url = some (urlToString (redactUrlModel m))) &&
       paramsRedactedOk (redactUrlModel m).params m.params
     | none => decide (r.url = some u)) &&
  (match e.requestHeaders, r.requestHeaders with
   | some hs, some hr => headersRedactedOk hr hs
   | none, none => true
   | _, _ => false)

/-! ## The claims -/

/-- **C1**: For every sequence of N calls to the buffer's enqueue operation
(`logEntry`) with capacity `maxBufferSize = K`, after every call the buffer
length is at most `K`, and the buffer holds exactly the most-recently-enqueued
`K` events (the oldest entries are dropped first on overflow).  Formally: for
every prefix `p` of a sequence of accepted entries, the buffer after folding
`logEntryStep` over `p` has length at most `K` and equals the last `K` of the
sanitized enqueued entries.  (`K ≥ 1` holds for every reachable configuration:
the default is 1000 and the storage loader at background.js 1123 ignores a
falsy override.) -/
theorem c1_buffer_bounded_fifo (cfg : Config) (K : Nat) (hK : 1 ≤ K)
    (es : List LogEntry) (hacc : ∀ e ∈ es, logEntryAccepts cfg e = true)
    (p : List LogEntry) (hp : p <+: es) :
    (p.foldl (logEntryStep cfg K) []).length ≤ K ∧
    p.foldl (logEntryStep cfg K) [] =
      (p.map (sanitizeData cfg)).drop (p.length - K) := by
  have haccp : ∀ e ∈ p, logEntryAccepts cfg e = true :=
    fun e he => hacc e (hp.sublist.subset he)
  have heq : p.foldl (logEntryStep cfg K) [] =
      (p.map (sanitizeData cfg)).drop ((p.map (sanitizeData cfg)).length - K) := by
    rw [foldl_logEntryStep_eq_of_accepts cfg K p [] haccp,
      foldl_bufferStep_eq K hK]
  constructor
  · rw [heq, List.length_drop]
    omega
  · rw [heq, List.length_map]

def c1Cfg : Config := {}

def c1Entries : List LogEntry :=
  [{ type := some "alpha" }, { type := some "beta" }, { type := some "gamma" }]

theorem c1_buffer_bounded_fifo_witness :
    1 ≤ 2 ∧ c1Entries.all (logEntryAccepts c1Cfg) = true ∧
    (c1Entries.foldl (logEntryStep c1Cfg 2) []).length ≤ 2 ∧
    c1Entries.foldl (logEntryStep c1Cfg 2) [] =
      (c1Entries.map (sanitizeData c1Cfg)).drop (c1Entries.length - 2) := by
  refine ⟨by decide, by decide, ?_, ?_⟩
  · exact (c1_buffer_bounded_fifo c1Cfg 2 (by decide) c1Entries (by decide)
      c1Entries List.prefix_rfl).1
  · exact (c1_buffer_bounded_fifo c1Cfg 2 (by decide) c1Entries (by decide)
      c1Entries List.prefix_rfl).2

/-- **C2**: For any one batch, after exactly `maxRetries` consecutive failed
delivery attempts (non-2xx or transport error), exactly one entry is appended
to the dead-letter list (`failedBatches`), and the live buffer (`logBuffer`)
holds no duplicate copy of that batch.  The outcome oracle
`List.replicate maxRetries false` fails every attempt; the batch is the
splice `take batchSize`, and its entries are gone from the buffer. -/
theorem c2_retry_exhaustion_dead_letters_once (cfg : Config) (st : DeliveryState)
    (hm : 1 ≤ cfg.maxRetries) (hnodup : st.logBuffer.Nodup)
    (hnet : ((st.logBuffer.take cfg.batchSize).filter isNetworkLogEntry).isEmpty
      = false) :
    (sendLogBatchRun cfg (List.replicate cfg.maxRetries false) st).1.failedBatches
      = st.failedBatches ++
        [((st.logBuffer.take cfg.batchSize).filter isNetworkLogEntry).map
          toNetworkLogRecord] ∧
    ∀ e ∈ (sendLogBatchRun cfg (List.replicate cfg.maxRetries false) st).2,
      e ∉ (sendLogBatchRun cfg (List.replicate cfg.maxRetries false) st).1.logBuffer := by
  have hbuf : st.logBuffer.isEmpty = false := by
    cases hb : st.logBuffer.isEmpty
    · rfl
    · rw [List.isEmpty_iff] at hb
      rw [hb] at hnet
      simp at hnet
  have hcore := sendWithRetryRun_all_fail cfg.maxRetries
    (((st.logBuffer.take cfg.batchSize).filter isNetworkLogEntry).map
      toNetworkLogRecord)
    (cfg.maxRetries - 1) 0
    { st with logBuffer := st.logBuffer.drop cfg.batchSize } (by omega)
  rw [show cfg.maxRetries - 1 + 1 = cfg.maxRetries from by omega] at hcore
  have hd : List.Disjoint (st.logBuffer.take cfg.batchSize)
      (st.logBuffer.drop cfg.batchSize) :=
    (List.nodup_append.mp (by rw [List.take_append_drop]; exact hnodup)).2.2
  simp only [sendLogBatchRun, hbuf, hnet, Bool.false_eq_true, if_false, hcore]
  exact ⟨trivial, fun e he hc => hd he hc⟩

def c2Cfg : Config := {}

def c2Entry : LogEntry := { requestId := some "r1", url := some "http://a/b" }

theorem c2_retry_exhaustion_dead_letters_once_witness :
    1 ≤ c2Cfg.maxRetries ∧
    List.Nodup [c2Entry] ∧
    (([c2Entry].take c2Cfg.batchSize).filter isNetworkLogEntry).isEmpty = false ∧
    (sendLogBatchRun c2Cfg (List.replicate c2Cfg.maxRetries false)
        { logBuffer := [c2Entry], failedBatches := [] }).1.failedBatches
      = [] ++ [(([c2Entry].take c2Cfg.batchSize).filter isNetworkLogEntry).map
          toNetworkLogRecord] ∧
    c2Entry ∉ (sendLogBatchRun c2Cfg (List.replicate c2Cfg.maxRetries false)
        { logBuffer := [c2Entry], failedBatches := [] }).1.logBuffer := by
  refine ⟨by decide, by decide, by decide, ?_, ?_⟩
  · exact (c2_retry_exhaustion_dead_letters_once c2Cfg
      { logBuffer := [c2Entry], failedBatches := [] }
      (by decide) (by decide) (by decide)).1
  · exact (c2_retry_exhaustion_dead_letters_once c2Cfg
      { logBuffer := [c2Entry], failedBatches := [] }
      (by decide) (by decide) (by decide)).2 c2Entry (by decide)

/-- **C3**: For a fixed batch retried under the retry policy, the delay
scheduled before attempt `k` equals `retryDelay * k` (linear in the attempt
number, not exponential), and is therefore non-decreasing across successive
attempts.  The schedule produced by an exhausting run is exactly
`[r*1, r*2, …, r*(m-1)]` — its `k`-th entry, the delay before attempt `k`,
is `r * k` — and it is a `≤`-chain. -/
theorem c3_linear_nondecreasing_delay (r m : Nat) (hm : 1 ≤ m) :
    sendWithRetryDelays r m (List.replicate m false) 0 =
      (List.range (m - 1)).map (fun k => r * (k + 1)) ∧
    List.Chain' (· ≤ ·) (sendWithRetryDelays r m (List.replicate m false) 0) := by
  have h := sendWithRetryDelays_all_fail r m (m - 1) 0 (by omega)
  rw [show m - 1 + 1 = m from by omega] at h
  have heq : sendWithRetryDelays r m (List.replicate m false) 0 =
      (List.range (m - 1)).map (fun k => r * (k + 1)) := by
    rw [h]
    apply List.map_congr_left
    intro i _
    congr 1
    omega
  refine ⟨heq, ?_⟩
  rw [heq]
  apply List.Pairwise.chain'
  rw [List.pairwise_map]
  apply (List.pairwise_lt_range (m - 1)).imp
  intro a b hab
  exact Nat.mul_le_mul_left r (by omega)

theorem c3_linear_nondecreasing_delay_witness :
    1 ≤ 3 ∧
    sendWithRetryDelays 5000 3 (List.replicate 3 false) 0 = [5000, 10000] := by
  refine ⟨by decide, ?_⟩
  rw [(c3_linear_nondecreasing_delay 5000 3 (by decide)).1]
  decide

/-- **C9**: When a dead-lettered batch is re-sent via the opportunistic drain
(`retryFailedBatches` removes the oldest entry after any successful delivery),
its attempt counter restarts at 0, so every dead-lettered batch receives a
fresh full budget of `maxRetries` attempts and, on renewed exhaustion,
re-enters the dead-letter list.  `retryFailedBatchesRun` hands the oldest
entry to `sendWithRetryRun` with `attempt = 0`; under `m` fresh failures it
performs exactly `m` attempts and the batch is appended back. -/
theorem c9_drain_restarts_budget (m : Nat) (hm : 1 ≤ m)
    (b : List NetworkLogRecord) (others : List (List NetworkLogRecord))
    (buf : List LogEntry) :
    retryFailedBatchesRun m (List.replicate m false)
        { logBuffer := buf, failedBatches := b :: others } =
      { logBuffer := buf, failedBatches := others ++ [b] } ∧
    sendWithRetryAttempts m (List.replicate m false) 0 = m := by
  constructor
  · have h := sendWithRetryRun_all_fail m b (m - 1) 0
      { logBuffer := buf, failedBatches := others } (by omega)
    rw [show m - 1 + 1 = m from by omega] at h
    simp only [retryFailedBatchesRun]
    exact h
  · have h := sendWithRetryAttempts_all_fail m (m - 1) 0 (by omega)
    rw [show m - 1 + 1 = m from by omega] at h
    exact h

def c9BatchA : List NetworkLogRecord :=
  [{ requestId := "a", url := "u", method := "GET", type := "other",
     blocked := false, block_reason := none }]

def c9BatchB : List NetworkLogRecord :=
  [{ requestId := "b", url := "u", method := "GET", type := "other",
     blocked := false, block_reason := none }]

theorem c9_drain_restarts_budget_witness :
    1 ≤ 3 ∧
    retryFailedBatchesRun 3 (List.replicate 3 false)
        { logBuffer := [], failedBatches := [c9BatchA, c9BatchB] } =
      { logBuffer := [], failedBatches := [c9BatchB, c9BatchA] } ∧
    sendWithRetryAttempts 3 (List.replicate 3 false) 0 = 3 := by
  refine ⟨by decide, ?_, ?_⟩
  · exact (c9_drain_restarts_budget 3 (by decide) c9BatchA [c9BatchB] []).1
  · exact (c9_drain_restarts_budget 3 (by decide) c9BatchA [c9BatchB] []).2

/-- The concrete sample of claim C5. -/
def clickfixSample : String :=
  "powershell -EncodedCommand aGVsbG93b3JsZGhlbGxvd29ybGRoZWxsb3dvcmxkaGVsbG93b3JsZA=="

/-- The verdict `detectClickfix` computes for `clickfixSample`. -/
def c5Verdict : ClickfixVerdict :=
  { riskScore := 100
    issues := ["powershell_command", "powershell_command_1", "base64_encoded_command",
               "clickfix_pattern", "high_entropy", "powershell_base64_combo",
               "encoded_command_flag"]
    codePreview := clickfixSample
    codeLength := 83
    type := "powershell"
    isPowerShell := true
    isTerminalCode := true }

set_option maxRecDepth 40000 in
set_option exponentiation.threshold 4000 in
/-- **C5**: For the specific input string
`"powershell -EncodedCommand aGVsbG93b3JsZGhlbGxvd29ybGRoZWxsb3dvcmxkaGVsbG93b3JsZA=="`,
`detectClickfix` returns a verdict whose `riskScore` is at least 85 and whose
`issues` list includes an encoded-command marker (`encoded_command_flag`) and
a base64 marker (`base64_encoded_command`). -/
theorem c5_encoded_command_sample :
    detectClickfix clickfixSample = some c5Verdict ∧
    85 ≤ c5Verdict.riskScore ∧
    "encoded_command_flag" ∈ c5Verdict.issues ∧
    "base64_encoded_command" ∈ c5Verdict.issues := by
  refine ⟨by decide, by decide, by decide, by decide⟩

theorem finishVerdict_bounds (acc : List String × Nat) (t : List Char)
    (ty : String) (ps term : Bool) (v : ClickfixVerdict)
    (h : finishVerdict acc t ty ps term = some v) :
    v.riskScore ≤ 100 ∧ v.codePreview.length ≤ 500 ∧ v.codePreview.data <+: t := by
  unfold finishVerdict at h
  simp only [] at h
  split at h
  · split at h
    · rw [Option.some.injEq] at h
      subst h
      refine ⟨Nat.min_le_right _ _, ?_, List.take_prefix 500 t⟩
      show (t.take 500).length ≤ 500
      rw [List.length_take]
      exact min_le_left _ _
    · cases h
  · split at h
    · rw [Option.some.injEq] at h
      subst h
      refine ⟨Nat.min_le_right _ _, ?_, List.take_prefix 500 t⟩
      show (t.take 500).length ≤ 500
      rw [List.length_take]
      exact min_le_left _ _
    · cases h

/-- **C6**: For every input on which `detectClickfix` returns a verdict, the
verdict's `riskScore` lies in `[0,100]` (`riskScore : Nat`, so the lower
bound is intrinsic) and its `codePreview` never exceeds 500 characters of
the original sample — it is a prefix of at most 500 characters of the
trimmed sample, hence an infix of the sample. -/
theorem c6_verdict_clamped_and_preview_bounded (code : String)
    (v : ClickfixVerdict) (h : detectClickfix code = some v) :
    v.riskScore ≤ 100 ∧ v.codePreview.length ≤ 500 ∧
    v.codePreview.data <:+: code.data := by
  by_cases hc : code = ""
  · rw [hc, show detectClickfix "" = none from rfl] at h
    cases h
  · unfold detectClickfix at h
    rw [if_neg hc] at h
    simp only [] at h
    obtain ⟨h1, h2, h3⟩ := finishVerdict_bounds _ _ _ _ _ _ h
    exact ⟨h1, h2, h3.isInfix.trans (jsTrim_isInfix code.data)⟩

def c6Sample : String := "Press Ctrl+V goo.gl/xy"

def c6Verdict : ClickfixVerdict :=
  { riskScore := 60
    issues := ["suspicious_download_3", "clickfix_pattern"]
    codePreview := c6Sample
    codeLength := 22
    type := "unknown"
    isPowerShell := false
    isTerminalCode := false }

theorem c6_verdict_clamped_and_preview_bounded_witness :
    detectClickfix c6Sample = some c6Verdict ∧
    c6Verdict.riskScore ≤ 100 ∧ c6Verdict.codePreview.length ≤ 500 ∧
    c6Verdict.codePreview.data <:+: c6Sample.data := by
  have h : detectClickfix c6Sample = some c6Verdict := by decide
  exact ⟨h, (c6_verdict_clamped_and_preview_bounded c6Sample c6Verdict h).1,
    (c6_verdict_clamped_and_preview_bounded c6Sample c6Verdict h).2.1,
    (c6_verdict_clamped_and_preview_bounded c6Sample c6Verdict h).2.2⟩

/-- **C7**: For every flushed batch, the delivery step partitions it by
route: all `network_log` entries are merged into a single JSON payload
posted once to `/api/logs`, while each security event (`clickfix_detection`,
`extension_security_scan`) is posted individually to `/api/security` and
each other special event is posted individually to `/api/extensions`.
The plan equals: one `logsPost` holding every network entry (when any),
followed by one `eventPost` per non-network entry at its type's endpoint. -/
theorem c7_partition_and_routing (batch : List LogEntry) :
    sendLogBatchPlan batch =
      (if batch.filter isNetworkLogEntry = [] then []
       else [DeliveryPost.logsPost
         ((batch.filter isNetworkLogEntry).map toNetworkLogRecord)]) ++
      (batch.filter (fun e => !isNetworkLogEntry e)).map
        (fun e => DeliveryPost.eventPost (eventEndpoint e) e) := by
  have hfilter : batch.filter
      (fun log => !(batch.filter isNetworkLogEntry).contains log)
      = batch.filter (fun e => !isNetworkLogEntry e) := by
    apply List.filter_congr
    intro x hx
    have hcm : (batch.filter isNetworkLogEntry).contains x = isNetworkLogEntry x := by
      have h0 : (batch.filter isNetworkLogEntry).contains x
          = decide (x ∈ batch.filter isNetworkLogEntry) := List.elem_eq_mem x _
      rw [h0]
      cases hnet : isNetworkLogEntry x
      · simp [List.mem_filter, hnet]
      · simp [List.mem_filter, hnet, hx]
    rw [hcm]
  simp only [sendLogBatchPlan, hfilter]
  by_cases hnil : batch.filter isNetworkLogEntry = []
  · simp [hnil]
  · simp [hnil, List.isEmpty_iff]

/-- **C8**: For every event whose URL parses successfully, sanitization
replaces the sensitive query parameters (`password, token, key, secret,
api_key, apikey, auth`) and the sensitive header names (`authorization,
cookie, x-api-key`) with the redaction marker `[REDACTED]`; for every event
whose URL is malformed, the event is emitted with the URL unchanged rather
than being dropped or raising an error.  `sanitizeClaimCheck` states both
branches plus the header property; it holds for every event.  The URL
builtin itself is spec-modelled (`urlParse` / `urlToString`), since WHATWG
`URL` is a platform API, not repository code. -/
theorem c8_sanitize_redacts_and_passes_malformed (cfg : Config) (e : LogEntry)
    (hcfg : cfg.sanitizeSensitiveData = true) :
    sanitizeClaimCheck cfg e = true := by
  obtain ⟨rid, url, ty, ety, mth, blk, brs, brs2, hdrs⟩ := e
  cases url with
  | none =>
    cases hdrs with
    | none => simp [sanitizeClaimCheck, sanitizeData, hcfg]
    | some hs =>
      simp [sanitizeClaimCheck, sanitizeData, hcfg, headersRedactedOk_map hs]
  | some u =>
    by_cases hemp : u = ""
    · subst hemp
      cases hdrs with
      | none =>
        simp [sanitizeClaimCheck, sanitizeData, hcfg,
          show urlParse "" = none from rfl]
      | some hs =>
        simp [sanitizeClaimCheck, sanitizeData, hcfg,
          show urlParse "" = none from rfl, headersRedactedOk_map hs]
    · cases hpu : urlParse u with
      | none =>
        cases hdrs with
        | none => simp [sanitizeClaimCheck, sanitizeData, hcfg, hemp, hpu]
        | some hs =>
          simp [sanitizeClaimCheck, sanitizeData, hcfg, hemp, hpu,
            headersRedactedOk_map hs]
      | some mdl =>
        cases hdrs with
        | none =>
          simp [sanitizeClaimCheck, sanitizeData, hcfg, hemp, hpu,
            redactUrlModel, paramsRedactedOk_redact]
        | some hs =>
          simp [sanitizeClaimCheck, sanitizeData, hcfg, hemp, hpu,
            redactUrlModel, paramsRedactedOk_redact, headersRedactedOk_map hs]

theorem addHits_nil (tag : String) (w : Nat) (acc : List String × Nat) :
    addHits tag w [] acc = acc := by
  simp [addHits, idxIssues]

theorem addTagHits_nil (tag : String) (w : Nat) (acc : List String × Nat) :
    addTagHits tag w [] acc = acc := by
  simp [addTagHits]

theorem addPowershellHits_nil (acc : List String × Nat) :
    addPowershellHits [] acc = acc := by
  simp [addPowershellHits, idxIssues]

theorem addIf_false (tag : String) (w : Nat) (acc : List String × Nat) :
    addIf false tag w acc = acc := rfl

theorem addLengthBonus_short {len : Nat} (h : ¬ 500 < len)
    (acc : List String × Nat) : addLengthBonus len false acc = acc := by
  unfold addLengthBonus
  rw [if_neg (by simp), if_neg h]

/-- The concrete short sample refuting claim C4 as stated: 18 characters,
no shell-command marker and no scripting-API marker, yet flagged (a
suspicious-download rule, `bit.ly`, and a clickfix rule, `Press Win+R`,
score 25 + 35 = 60 ≥ 50). -/
def cfxShortSample : String := "Press Win+R bit.ly"

/-- **C4, counterexample**: the claim "for every sample shorter than the
minimum-length floor (20–30 chars) that contains no terminal-like
(shell-command or scripting-API) marker, `detectClickfix` returns none" is
false at `"Press Win+R bit.ly"`: the trimmed sample has fewer than 20
characters, contains no shell-command marker (`hasTerminalMarker`) and no
scripting-API marker (`hasScriptApiMarker`), yet `detectClickfix` flags it —
the detector itself enforces no length floor. -/
theorem c4_counterexample_short_sample_flagged :
    (jsTrim cfxShortSample.data).length < 20 ∧
    hasTerminalMarker cfxShortSample = false ∧
    hasScriptApiMarker cfxShortSample = false ∧
    detectClickfix cfxShortSample ≠ none := by
  refine ⟨by decide, by decide, by decide, by decide⟩

/-- **C4, amended**: `detectClickfix` has no minimum-length floor (length
gating lives in its callers, content.js 1096 and 1252); what holds of the
classifier itself is: every sample shorter than the 20-character floor that
matches none of the rule-table patterns and none of the combination-bonus
marker substrings yields none. -/
theorem c4_amended_short_unmatched_none (s : String)
    (hlen : (jsTrim s.data).length < 20)
    (hnone : matchesNoRuleOrMarker s = true) :
    detectClickfix s = none := by
  by_cases hc : s = ""
  · rw [hc]
    rfl
  · have h500 : ¬ 500 < (jsTrim s.data).length := by omega
    unfold matchesNoRuleOrMarker at hnone
    simp only [Bool.and_eq_true, Bool.not_eq_true'] at hnone
    obtain ⟨⟨⟨⟨⟨⟨⟨⟨⟨⟨⟨⟨hPS, hW⟩, hV⟩, hPSC⟩, hB64⟩, hSD⟩, hCF⟩, hJS⟩,
      hOBF⟩, hIex⟩, hDl⟩, hEnc⟩, hEncRe⟩ := hnone
    unfold detectClickfix
    rw [if_neg hc]
    simp only [hPS, hits_eq_nil_of_noneMatch hW, hits_eq_nil_of_noneMatch hV,
      hits_eq_nil_of_noneMatch hPSC, hits_eq_nil_of_noneMatch hB64,
      hits_eq_nil_of_noneMatch hSD, hits_eq_nil_of_noneMatch hCF,
      hits_eq_nil_of_noneMatch hJS, hits_eq_nil_of_noneMatch hOBF,
      hIex, hDl, hEnc, hEncRe, List.isEmpty_nil, Bool.not_true,
      Bool.or_false, Bool.false_or, Bool.or_self]
    simp only [addLengthBonus_short h500]
    cases hE : highEntropy (jsTrim s.data) <;> rfl

theorem c4_amended_short_unmatched_none_witness :
    (jsTrim "hello how are".data).length < 20 ∧
    matchesNoRuleOrMarker "hello how are" = true ∧
    detectClickfix "hello how are" = none :=
  ⟨by decide, by decide,
   c4_amended_short_unmatched_none "hello how are" (by decide) (by decide)⟩

/-- **C10**: For every clipboard write checked by `checkClipboardWrite`, if
the trimmed text is shorter than 20 characters or consists solely of a
single http(s) URL, no detection message is ever emitted, regardless of the
text's content or whether the write was programmatic. -/
theorem c10_clipboard_short_or_url_silent (text : String) (prog : Bool)
    (h : (jsTrimStr text).length < 20 ∨ isSingleHttpUrl (jsTrimStr text) = true) :
    checkClipboardWrite text prog = none := by
  unfold checkClipboardWrite
  by_cases hc : text = ""
  · rw [if_pos hc]
  · rw [if_neg hc]
    simp only []
    rcases h with h | h
    · rw [if_pos h]
    · by_cases hlen : (jsTrimStr text).length < 20
      · rw [if_pos hlen]
      · rw [if_neg hlen, if_pos h]

theorem c10_clipboard_short_or_url_silent_witness :
    ((jsTrimStr "https://example.org/a/b/c").length < 20 ∨
      isSingleHttpUrl (jsTrimStr "https://example.org/a/b/c") = true) ∧
    checkClipboardWrite "https://example.org/a/b/c" true = none :=
  ⟨Or.inr (by decide),
   c10_clipboard_short_or_url_silent "https://example.org/a/b/c" true
     (Or.inr (by decide))⟩

def c8Entry : LogEntry :=
  { url := some "http://e.com/p?password=hunter2&q=ok"
    requestHeaders := some [{ name := "Cookie", value := "sid=1" },
                            { name := "Accept", value := "any" }] }

theorem c8_sanitize_redacts_and_passes_malformed_witness :
    ({} : Config).sanitizeSensitiveData = true ∧
    sanitizeClaimCheck {} c8Entry = true ∧
    (sanitizeData {} c8Entry).url = some "http://e.com/p?password=[REDACTED]&q=ok" ∧
    (sanitizeData {} c8Entry).requestHeaders =
      some [{ name := "Cookie", value := "[REDACTED]" },
            { name := "Accept", value := "any" }] := by
  refine ⟨by decide, c8_sanitize_redacts_and_passes_malformed {} c8Entry (by decide),
    by decide, by decide⟩

end CanIGoIn
